import Mathlib

/-!
Shallow embedding of the incremental stream-decoding core of `libopenai`
(files `src/lib.rs`, `src/file.rs`, `src/api/common.rs`).

Bytes are modelled as `List Nat` (one `Nat` per `u8`).  The fallible chunked
byte source (`reqwest`'s body stream) is modelled as a `List (Except ε chunk)`
that is consumed from the front; polling an exhausted source yields the
end-of-stream signal.  `Poll::Pending` never changes which items are produced
in which order, so the source is modelled as always ready.

`serde_json::from_slice::<ChunkError>` and `serde_json::from_slice::<T>` are
external collaborators; the decoder is parameterised over them
(`pe`, `pt` below).  Concrete instantiations used for witnesses model the
real serde behaviour on the concrete documents that appear in them.
-/

namespace LibOpenai

/-! ## Byte helpers, from src/lib.rs lines 238-263 -/

/-- Model of `u8::is_ascii_whitespace`: space, tab, newline, form feed,
carriage return. -/
def isAsciiWhitespace (b : Nat) : Bool :=
  b == 32 || b == 9 || b == 10 || b == 12 || b == 13

/-- `trim_ascii_start` from src/lib.rs lines 244-252: repeatedly remove a
leading ASCII-whitespace byte. -/
def trim_ascii_start (l : List Nat) : List Nat :=
  l.dropWhile isAsciiWhitespace

/-- `trim_ascii_end` from src/lib.rs lines 255-263: repeatedly remove a
trailing ASCII-whitespace byte. -/
def trim_ascii_end (l : List Nat) : List Nat :=
  (l.reverse.dropWhile isAsciiWhitespace).reverse

/-- `trim_ascii` from src/lib.rs lines 239-241. -/
def trim_ascii (l : List Nat) : List Nat :=
  trim_ascii_end (trim_ascii_start l)

/-! ## Frame splitting, from src/lib.rs lines 177-191 -/

/-- The scan of `current.windows(2)` in `process_line` (src/lib.rs lines
178-187): index of the first occurrence of the two-byte delimiter
`\n\n` (bytes 10, 10). -/
def findDelim : List Nat → Option Nat
  | [] => none
  | [_] => none
  | a :: b :: rest =>
    if a = 10 ∧ b = 10 then some 0
    else (findDelim (b :: rest)).map (· + 1)

/-- Model of `Bytes::slice(n..)`: returns `none` exactly when the range
assertion `n <= len` fails, which makes the Rust call panic. -/
def sliceFrom (n : Nat) (b : List Nat) : Option (List Nat) :=
  if n ≤ b.length then some (b.drop n) else none

/-- `process_line` from src/lib.rs lines 177-191.  Scans for `\n\n`, then
evaluates `current.split_off(idx.unwrap_or(current.len())).slice(2..)` and
swaps the remainder back into the buffer.  The returned pair is
(extracted line, new buffer contents); `none` models the panic of
`slice(2..)` when the `split_off` result is shorter than the delimiter. -/
def process_line (current : List Nat) : Option (List Nat × List Nat) :=
  match sliceFrom 2 (current.drop ((findDelim current).getD current.length)) with
  | some split => some (current.take ((findDelim current).getD current.length), split)
  | none => none

/-- No occurrence of the `\n\n` delimiter anywhere in the byte sequence. -/
def noDoubleNewline (l : List Nat) : Prop :=
  ∀ a b : List Nat, l ≠ a ++ 10 :: 10 :: b

/-! ## The event decoder, from src/lib.rs lines 216-233

The two serde collaborators are parameters:
`pe` models `serde_json::from_slice::<ChunkError>` (the error-shape test,
returning the deserialized error payload on success) and `pt` models
`serde_json::from_slice::<T>`. -/

/-- The literal terminal token from src/lib.rs line 170: `b"[DONE]"`. -/
def DONE : List Nat := [91, 68, 79, 78, 69, 93]

/-- Outcome of interpreting one extracted line in
`OpenAiStream::poll_next` (src/lib.rs lines 216-233). -/
inductive Decoded (Er T : Type) where
  /-- The trimmed line was empty: the loop continues. -/
  | skip
  /-- The line parsed as the error shape: the stream returns an error item. -/
  | protocolError (e : Er)
  /-- The line, after the 5-byte marker, starts with the terminal token:
  the stream returns end of sequence. -/
  | ended
  /-- The payload deserialized: the stream returns a successful item. -/
  | payload (t : T)
  /-- Payload deserialization failed: the stream returns an error item. -/
  | decodeError
  /-- The slice expression of line 227 panicked: the trimmed line is
  shorter than the 5 bytes removed by the indexing. -/
  | panicked
deriving DecidableEq

/-- The per-line portion of `OpenAiStream::poll_next`, src/lib.rs lines
216-233: trim the line, skip it when empty, test the error shape, remove
the first 5 bytes (the marker is never compared), test the terminal token,
then deserialize the payload. -/
def decodeFrame (pe : List Nat → Option Er) (pt : List Nat → Option T)
    (line : List Nat) : Decoded Er T :=
  match trim_ascii line with
  | [] => .skip
  | t =>
    match pe t with
    | some e => .protocolError e
    | none =>
      match sliceFrom 5 t with
      | none => .panicked
      | some r =>
        if DONE.isPrefixOf (trim_ascii_start r) then .ended
        else
          match pt (trim_ascii_start r) with
          | some v => .payload v
          | none => .decodeError

/-! ## The typed event stream, from src/lib.rs lines 149-236 -/

instance exceptDecEq {ε α : Type} [DecidableEq ε] [DecidableEq α] :
    DecidableEq (Except ε α) := fun x y =>
  match x, y with
  | .ok a, .ok b =>
    if h : a = b then .isTrue (by rw [h]) else .isFalse (by simp [h])
  | .error a, .error b =>
    if h : a = b then .isTrue (by rw [h]) else .isFalse (by simp [h])
  | .ok _, .error _ => .isFalse (by simp)
  | .error _, .ok _ => .isFalse (by simp)

/-- State of an `OpenAiStream<T>` (src/lib.rs lines 149-157): the inner
fallible byte-chunk source and the `current_chunk` buffer. -/
structure StreamState (ε : Type) where
  source : List (Except ε (List Nat))
  currentChunk : Option (List Nat)
deriving DecidableEq

/-- The three error kinds surfaced by the typed stream: a transport error
from the source (`Error::Reqwest`), an in-band protocol error
(`Error::OpenAI`), or a payload deserialization error (`Error::Json`). -/
inductive StreamErr (ε Er : Type) where
  | transport (e : ε)
  | protocol (e : Er)
  | decode
deriving DecidableEq

/-- A ready output of `poll_next`: one item of the sequence, or its end
(`Poll::Ready(None)`). -/
inductive POut (ε Er T : Type) where
  | item (v : Except (StreamErr ε Er) T)
  | ended
deriving DecidableEq

/-- Result of one call to `OpenAiStream::poll_next`.  `polls` counts how
many times the inner byte source was polled during the call.  `panicked`
models a panic; `stuck` is the out-of-fuel marker of the fueled evaluator
and is unreachable from `OpenAiStream.poll_next` (the fuel passed there
strictly dominates the loop measure, see `pollNextAux_congr`). -/
inductive PollResult (ε Er T : Type) where
  | panicked
  | stuck
  | ready (out : POut ε Er T) (polls : Nat) (s : StreamState ε)
deriving DecidableEq

/-- Add source-poll counts performed before entering a loop iteration. -/
def PollResult.addPolls : PollResult ε Er T → Nat → PollResult ε Er T
  | .panicked, _ => .panicked
  | .stuck, _ => .stuck
  | .ready o p s, k => .ready o (p + k) s

/-- `current_chunk` after `process_line`: the code stores `None` when the
remainder is empty (src/lib.rs lines 197-199 and 205-208). -/
def bufOf (rest : List Nat) : Option (List Nat) :=
  if rest.isEmpty then none else some rest

/-- The loop of `OpenAiStream::poll_next` (src/lib.rs lines 193-234), with
an explicit fuel argument bounding the number of loop iterations.  Each
iteration either extracts a line from the buffered chunk or polls the
source for a new chunk, exactly as the code does; `skip` lines
(all-whitespace frames) continue the loop. -/
def pollNextAux (pe : List Nat → Option Er) (pt : List Nat → Option T) :
    Nat → StreamState ε → PollResult ε Er T
  | 0, _ => .stuck
  | fuel + 1, ⟨src, some current⟩ =>
    match process_line current with
    | none => .panicked
    | some (line, rest) =>
      match decodeFrame pe pt line with
      | .skip => pollNextAux pe pt fuel ⟨src, bufOf rest⟩
      | .protocolError e => .ready (.item (.error (.protocol e))) 0 ⟨src, bufOf rest⟩
      | .ended => .ready .ended 0 ⟨src, bufOf rest⟩
      | .payload v => .ready (.item (.ok v)) 0 ⟨src, bufOf rest⟩
      | .decodeError => .ready (.item (.error .decode)) 0 ⟨src, bufOf rest⟩
      | .panicked => .panicked
  | _ + 1, ⟨[], none⟩ => .ready .ended 1 ⟨[], none⟩
  | _ + 1, ⟨.error e :: restSrc, none⟩ =>
    .ready (.item (.error (.transport e))) 1 ⟨restSrc, none⟩
  | fuel + 1, ⟨.ok x :: restSrc, none⟩ =>
    match process_line x with
    | none => .panicked
    | some (line, rest) =>
      match decodeFrame pe pt line with
      | .skip => (pollNextAux pe pt fuel ⟨restSrc, bufOf rest⟩).addPolls 1
      | .protocolError e => .ready (.item (.error (.protocol e))) 1 ⟨restSrc, bufOf rest⟩
      | .ended => .ready .ended 1 ⟨restSrc, bufOf rest⟩
      | .payload v => .ready (.item (.ok v)) 1 ⟨restSrc, bufOf rest⟩
      | .decodeError => .ready (.item (.error .decode)) 1 ⟨restSrc, bufOf rest⟩
      | .panicked => .panicked

/-- Weight of a queued source event: the byte length of a chunk. -/
def srcWeight : Except ε (List Nat) → Nat
  | .ok c => c.length
  | .error _ => 0

/-- Strict upper bound for the number of loop iterations a single
`poll_next` call can take: every iteration either consumes at least the
two delimiter bytes from the buffer or consumes a source event. -/
def stateMeasure (s : StreamState ε) : Nat :=
  (s.currentChunk.getD []).length + (s.source.map srcWeight).sum + s.source.length

namespace OpenAiStream

/-- `OpenAiStream::poll_next` from src/lib.rs lines 166-235, evaluated with
fuel strictly above the loop measure (sufficient by `pollNextAux_congr`). -/
def poll_next (pe : List Nat → Option Er) (pt : List Nat → Option T)
    (s : StreamState ε) : PollResult ε Er T :=
  pollNextAux pe pt (stateMeasure s + 1) s

end OpenAiStream

/-! ## The line-oriented file-contents stream, from src/file.rs lines 204-227 -/

/-- State of a `Contents<S, T>` stream (src/file.rs lines 40-47): the inner
byte-chunk source and the `buf: VecDeque<u8>` accumulator, flattened to its
logical byte sequence. -/
structure ContentsState (ε : Type) where
  source : List (Except ε (List Nat))
  buf : List Nat
deriving DecidableEq

/-- Error kinds of the contents stream: a transport error or a
`serde_json` deserialization error. -/
inductive CErr (ε : Type) where
  | transport (e : ε)
  | decode
deriving DecidableEq

/-- A ready output of `Contents::poll_next`. -/
inductive COut (ε T : Type) where
  | item (v : Except (CErr ε) T)
  | ended
deriving DecidableEq

/-- Result of one call to `Contents::poll_next`; `polls` counts polls of
the inner byte source during the call. -/
inductive CPollResult (ε T : Type) where
  | ready (out : COut ε T) (polls : Nat) (s : ContentsState ε)
deriving DecidableEq

def CPollResult.addPolls : CPollResult ε T → Nat → CPollResult ε T
  | .ready o p s, k => .ready o (p + k) s

/-- The scan `this.buf.iter().enumerate().find(|(_, &x)| x == b'\n')` of
src/file.rs line 214: index of the first newline byte. -/
def findNL : List Nat → Option Nat
  | [] => none
  | b :: rest => if b = 10 then some 0 else (findNL rest).map (· + 1)

namespace Contents

/-- The loop of `Contents::poll_next` (src/file.rs lines 207-226).  When a
newline is found at index `idx`, the code evaluates
`this.buf.split_off(idx)`: for a `VecDeque` this RETAINS elements
`[0, idx)` in `buf` and RETURNS elements `[idx, len)`, and the returned
part (newline included, up to the end of the whole buffer) is what is
passed to `serde_json::from_slice::<T>` (modelled by `pt`).  When no
newline is found, one chunk is pulled from the source and the loop
retries; source end and transport errors return immediately. -/
def pollNextLoop (pt : List Nat → Option T) :
    List (Except ε (List Nat)) → List Nat → CPollResult ε T
  | src, buf =>
    match findNL buf with
    | some idx =>
      match pt (buf.drop idx) with
      | some v => .ready (.item (.ok v)) 0 ⟨src, buf.take idx⟩
      | none => .ready (.item (.error .decode)) 0 ⟨src, buf.take idx⟩
    | none =>
      match src with
      | [] => .ready .ended 1 ⟨[], buf⟩
      | .error e :: rest => .ready (.item (.error (.transport e))) 1 ⟨rest, buf⟩
      | .ok x :: rest => (pollNextLoop pt rest (buf ++ x)).addPolls 1

/-- `Contents::poll_next` from src/file.rs lines 204-227. -/
def poll_next (pt : List Nat → Option T) (s : ContentsState ε) :
    CPollResult ε T :=
  pollNextLoop pt s.source s.buf

end Contents

/-! ## The buffered byte reader, from src/api/common.rs lines 91-120 -/

/-- State of a `StreamTokioAsyncRead<S>` (src/api/common.rs lines 24-30). -/
structure ReaderState (ε : Type) where
  source : List (Except ε (List Nat))
  buffer : List Nat
deriving DecidableEq

/-- Result of one call to `poll_fill_buf`: either the returned slice or a
propagated source error, together with the number of source polls made
during the call and the post-call state. -/
inductive FillResult (ε : Type) where
  | ok (view : List Nat) (polls : Nat) (s : ReaderState ε)
  | err (e : ε) (polls : Nat) (s : ReaderState ε)
deriving DecidableEq

namespace StreamTokioAsyncRead

/-- `StreamTokioAsyncRead::poll_fill_buf` from src/api/common.rs lines
95-113: a non-empty buffer is returned as one contiguous slice
(`make_contiguous`) without touching the source; an empty buffer pulls one
chunk, extends the buffer with it and returns the new contents; source end
returns the empty slice. -/
def poll_fill_buf (s : ReaderState ε) : FillResult ε :=
  match s with
  | ⟨src, buf⟩ =>
    if buf.isEmpty then
      match src with
      | [] => .ok [] 1 ⟨[], buf⟩
      | .ok bytes :: rest => .ok (buf ++ bytes) 1 ⟨rest, buf ++ bytes⟩
      | .error e :: rest => .err e 1 ⟨rest, buf⟩
    else .ok buf 0 ⟨src, buf⟩

/-- `StreamTokioAsyncRead::consume` from src/api/common.rs lines 116-119:
`buffer.drain(0..amt)` removes the first `amt` bytes. -/
def consume (s : ReaderState ε) (amt : Nat) : ReaderState ε :=
  ⟨s.source, s.buffer.drop amt⟩

end StreamTokioAsyncRead

/-! ## Concrete collaborators for witnesses

The universally quantified theorems below take the serde collaborators as
parameters; the following concrete models instantiate them in witnesses
and counterexamples.  Each is a model of the named serde call that is
exact on every byte string it is applied to in this file. -/

/-- ASCII bytes of a string (all strings used are ASCII). -/
def bytes (s : String) : List Nat :=
  s.toList.map Char.toNat

/-- The exact error document used by the concrete scenarios: a JSON object
with a single `error` field whose payload has the mandatory `message` and
`type` fields of `OpenAiError` (src/error.rs lines 44-52). -/
def errBytes : List Nat :=
  bytes "\x7b\"error\":\x7b\"message\":\"rate limited\",\"type\":\"server_error\"\x7d\x7d"

/-- Model of `serde_json::from_slice::<ChunkError>` (src/lib.rs lines
172-175 and 222), specialised to recognize exactly the one error document
used in the scenarios of this file; every other input used here is not a
JSON object with an `error` field, on which the real call fails. -/
def parseErrC (f : List Nat) : Option (List Nat) :=
  if f = errBytes then some (bytes "rate limited") else none

/-- Numeric value of a list of ASCII decimal digits. -/
def digitsToNat (f : List Nat) : Nat :=
  f.foldl (fun acc b => 10 * acc + (b - 48)) 0

/-- Model of `serde_json::from_slice::<u32>`, i.e. the payload type `T`
instantiated at `u32`: leading and trailing JSON whitespace around a
decimal literal without redundant leading zeros is accepted, anything else
(including trailing non-whitespace data) is rejected.  Exact for every
input it is applied to in this file. -/
def parseNatC (f : List Nat) : Option Nat :=
  if (trim_ascii f ≠ [] ∧ (∀ b ∈ trim_ascii f, 48 ≤ b ∧ b ≤ 57))
      ∧ ((trim_ascii f).head? = some 48 → trim_ascii f = [48]) then
    some (digitsToNat (trim_ascii f))
  else none

/-- The 5 bytes of the literal marker `data:` that src/lib.rs line 227
removes by position. -/
def dataMark : List Nat := bytes "data:"

/-! ## One-step lemmas about the decoder and the poll loop -/

/-- The ready output corresponding to a surfaced decode outcome (the
non-surfaced outcomes `skip` and `panicked` are mapped to an unused
placeholder; every use below excludes them by hypothesis). -/
def itemOfDecoded : Decoded Er T → POut ε Er T
  | .protocolError e => .item (.error (.protocol e))
  | .ended => .ended
  | .payload v => .item (.ok v)
  | .decodeError => .item (.error .decode)
  | .skip => .ended
  | .panicked => .ended

/-! ## Lemmas about the frame splitter and the poll loop -/

theorem findDelim_isSome_append (a : List Nat) (b : List Nat) :
    (findDelim (a ++ 10 :: 10 :: b)).isSome = true := by
  induction a with
  | nil => simp [findDelim]
  | cons x xs ih =>
    cases xs with
    | nil =>
      by_cases hx : x = 10 <;> simp [findDelim, hx]
    | cons y ys =>
      rcases Option.isSome_iff_exists.mp ih with ⟨v, hv⟩
      simp only [List.cons_append] at hv ⊢
      by_cases hx : x = 10 ∧ y = 10 <;> simp [findDelim, hx, hv]

theorem noDoubleNewline_of_findDelim (l : List Nat)
    (h : findDelim l = none) : noDoubleNewline l := by
  intro a b hab
  have := findDelim_isSome_append a b
  rw [← hab, h] at this
  simp at this

theorem findDelim_eq_none (l : List Nat) (h : noDoubleNewline l) :
    findDelim l = none := by
  induction l with
  | nil => rfl
  | cons x xs ih =>
    cases xs with
    | nil => rfl
    | cons y ys =>
      have hx : ¬(x = 10 ∧ y = 10) := by
        rintro ⟨rfl, rfl⟩
        exact h [] ys rfl
      have htl : noDoubleNewline (y :: ys) := by
        intro a b hab
        exact h (x :: a) b (by simp [hab])
      simp [findDelim, hx, ih htl]

theorem findDelim_append_delim (t c : List Nat) (hnd : noDoubleNewline t)
    (hl : t.getLast? ≠ some 10) :
    findDelim (t ++ 10 :: 10 :: c) = some t.length := by
  induction t with
  | nil => simp [findDelim]
  | cons x xs ih =>
    cases xs with
    | nil =>
      have hx : x ≠ 10 := by
        intro hx
        exact hl (by simp [hx, List.getLast?])
      simp [findDelim, hx]
    | cons y ys =>
      have hx : ¬(x = 10 ∧ y = 10) := by
        rintro ⟨rfl, rfl⟩
        exact hnd [] ys rfl
      have htl : noDoubleNewline (y :: ys) := by
        intro a b hab
        exact hnd (x :: a) b (by simp [hab])
      have hltl : (y :: ys).getLast? ≠ some 10 := by
        rw [List.getLast?_cons_cons] at hl
        exact hl
      have hrec := ih htl hltl
      simp only [List.cons_append] at hrec ⊢
      simp [findDelim, hx, hrec]

theorem head_dropWhile_false {p : Nat → Bool} :
    ∀ {l : List Nat} {b : Nat}, (l.dropWhile p).head? = some b → p b = false := by
  intro l
  induction l with
  | nil =>
    intro b h
    simp [List.dropWhile] at h
  | cons a as ih =>
    intro b h
    by_cases hp : p a = true
    · rw [List.dropWhile_cons, if_pos hp] at h
      exact ih h
    · rw [List.dropWhile_cons, if_neg hp] at h
      simp only [List.head?_cons, Option.some.injEq] at h
      rw [← h]
      exact Bool.eq_false_iff.mpr hp

/-- An already end-trimmed byte sequence cannot end in a newline byte. -/
theorem trim_ascii_getLast_not_nl {t : List Nat} (htrim : trim_ascii t = t) :
    t.getLast? ≠ some 10 := by
  intro hlast
  rw [← htrim] at hlast
  unfold trim_ascii trim_ascii_end at hlast
  rw [List.getLast?_reverse] at hlast
  have := head_dropWhile_false hlast
  simp [isAsciiWhitespace] at this

/-- A frame followed by its terminating delimiter is split back into exactly
that frame, leaving an empty buffer. -/
theorem process_line_terminated (t : List Nat) (hnd : noDoubleNewline t)
    (hl : t.getLast? ≠ some 10) :
    process_line (t ++ [10, 10]) = some (t, []) := by
  have hfd : findDelim (t ++ 10 :: 10 :: ([] : List Nat)) = some t.length :=
    findDelim_append_delim t [] hnd hl
  unfold process_line
  rw [show t ++ [10, 10] = t ++ 10 :: 10 :: ([] : List Nat) from rfl, hfd]
  simp [sliceFrom, List.drop_left, List.take_left]

/-- A frame followed by its delimiter and a further remainder splits into the
frame and the remainder. -/
theorem process_line_append (t c : List Nat) (hnd : noDoubleNewline t)
    (hl : t.getLast? ≠ some 10) :
    process_line (t ++ 10 :: 10 :: c) = some (t, c) := by
  have hfd : findDelim (t ++ 10 :: 10 :: c) = some t.length :=
    findDelim_append_delim t c hnd hl
  unfold process_line
  rw [hfd]
  have hdrop : (t ++ 10 :: 10 :: c).drop t.length = 10 :: 10 :: c :=
    List.drop_left t (10 :: 10 :: c)
  have htake : (t ++ 10 :: 10 :: c).take t.length = t :=
    List.take_left t (10 :: 10 :: c)
  simp [sliceFrom, hdrop, htake]

theorem process_line_none (c : List Nat) (h : noDoubleNewline c) :
    process_line c = none := by
  unfold process_line
  rw [findDelim_eq_none c h]
  simp [sliceFrom]

theorem sliceFrom_eq_some {n : Nat} {b r : List Nat}
    (h : sliceFrom n b = some r) : n ≤ b.length ∧ r = b.drop n := by
  unfold sliceFrom at h
  split at h
  · injection h with h
    exact ⟨by assumption, h.symm⟩
  · simp at h

theorem process_line_length {c l r : List Nat}
    (hp : process_line c = some (l, r)) : r.length + 2 ≤ c.length := by
  unfold process_line at hp
  rcases hs : sliceFrom 2 (c.drop ((findDelim c).getD c.length)) with _ | split
  · rw [hs] at hp
    simp at hp
  · rw [hs] at hp
    simp only [Option.some.injEq, Prod.mk.injEq] at hp
    obtain ⟨hn, hr⟩ := sliceFrom_eq_some hs
    have : split = r := hp.2
    subst this
    rw [hr]
    simp only [List.length_drop] at hn ⊢
    omega

theorem bufOf_getD_length (r : List Nat) : ((bufOf r).getD []).length ≤ r.length := by
  unfold bufOf
  split <;> simp

/-- Fuel irrelevance: any fuel strictly above the loop measure evaluates the
loop to the same result, so `OpenAiStream.poll_next` below is a faithful
rendering of the (always terminating) source loop. -/
theorem pollNextAux_congr (pe : List Nat → Option Er) (pt : List Nat → Option T) :
    ∀ (f g : Nat) (s : StreamState ε), stateMeasure s < f → stateMeasure s < g →
      pollNextAux pe pt f s = pollNextAux pe pt g s := by
  intro f
  induction f with
  | zero => exact fun g s h _ => absurd h (Nat.not_lt_zero _)
  | succ f ih =>
    intro g s hf hg
    cases g with
    | zero => exact absurd hg (Nat.not_lt_zero _)
    | succ g =>
      obtain ⟨src, cur⟩ := s
      cases cur with
      | some current =>
        cases hpl : process_line current with
        | none => simp only [pollNextAux, hpl]
        | some p =>
          obtain ⟨line, rest⟩ := p
          have hlen := process_line_length hpl
          have hb := bufOf_getD_length rest
          simp only [pollNextAux, hpl]
          cases hdf : decodeFrame pe pt line with
          | skip =>
            show pollNextAux pe pt f ⟨src, bufOf rest⟩
                = pollNextAux pe pt g ⟨src, bufOf rest⟩
            apply ih
            · simp only [stateMeasure, Option.getD_some] at hf ⊢
              omega
            · simp only [stateMeasure, Option.getD_some] at hg ⊢
              omega
          | protocolError e => rfl
          | ended => rfl
          | payload v => rfl
          | decodeError => rfl
          | panicked => rfl
      | none =>
        cases src with
        | nil => rfl
        | cons hd tl =>
          cases hd with
          | error e => rfl
          | ok x =>
            cases hpl : process_line x with
            | none => simp only [pollNextAux, hpl]
            | some p =>
              obtain ⟨line, rest⟩ := p
              have hlen := process_line_length hpl
              have hb := bufOf_getD_length rest
              simp only [pollNextAux, hpl]
              cases hdf : decodeFrame pe pt line with
              | skip =>
                show (pollNextAux pe pt f ⟨tl, bufOf rest⟩).addPolls 1
                    = (pollNextAux pe pt g ⟨tl, bufOf rest⟩).addPolls 1
                have heq : pollNextAux pe pt f ⟨tl, bufOf rest⟩
                    = pollNextAux pe pt g ⟨tl, bufOf rest⟩ := by
                  apply ih
                  · simp only [stateMeasure, List.map_cons, List.sum_cons,
                      srcWeight, List.length_cons, Option.getD_none] at hf ⊢
                    omega
                  · simp only [stateMeasure, List.map_cons, List.sum_cons,
                      srcWeight, List.length_cons, Option.getD_none] at hg ⊢
                    omega
                rw [heq]
              | protocolError e => rfl
              | ended => rfl
              | payload v => rfl
              | decodeError => rfl
              | panicked => rfl

theorem decodeFrame_protocol {Er T : Type} (pe : List Nat → Option Er)
    (pt : List Nat → Option T) {line : List Nat} {e : Er}
    (hne : trim_ascii line ≠ []) (hpe : pe (trim_ascii line) = some e) :
    decodeFrame pe pt line = .protocolError e := by
  unfold decodeFrame
  cases ht : trim_ascii line with
  | nil => exact absurd ht hne
  | cons a as =>
    rw [ht] at hpe
    simp [hpe]

theorem decodeFrame_after_marker {Er T : Type} (pe : List Nat → Option Er)
    (pt : List Nat → Option T) {line t : List Nat}
    (ht : trim_ascii line = t) (hne : t ≠ []) (hpe : pe t = none)
    (hlen : 5 ≤ t.length) :
    decodeFrame pe pt line =
      if DONE.isPrefixOf (trim_ascii_start (t.drop 5)) then .ended
      else
        match pt (trim_ascii_start (t.drop 5)) with
        | some v => .payload v
        | none => .decodeError := by
  unfold decodeFrame
  rw [ht]
  cases t with
  | nil => exact absurd rfl hne
  | cons a as =>
    have hs : sliceFrom 5 (a :: as) = some ((a :: as).drop 5) := by
      unfold sliceFrom
      rw [if_pos hlen]
    simp [hpe, hs]

theorem decodeFrame_data {Er T : Type} (pe : List Nat → Option Er)
    (pt : List Nat → Option T) {line t r : List Nat}
    (ht : trim_ascii line = t) (hpe : pe t = none)
    (hdata : t = dataMark ++ r) :
    decodeFrame pe pt line =
      if DONE.isPrefixOf (trim_ascii_start r) then .ended
      else
        match pt (trim_ascii_start r) with
        | some v => .payload v
        | none => .decodeError := by
  have hne : t ≠ [] := by
    rw [hdata]
    simp [dataMark, bytes]
  have hlen : 5 ≤ t.length := by
    rw [hdata]
    simp [dataMark, bytes]
  have hdrop : t.drop 5 = r := by
    rw [hdata]
    exact List.drop_left dataMark r
  rw [decodeFrame_after_marker pe pt ht hne hpe hlen, hdrop]

/-- Unfolding `poll_next` when the buffered chunk yields a surfaced frame:
the item is returned at once, without any poll of the source. -/
theorem poll_next_some_frame {ε Er T : Type} (pe : List Nat → Option Er)
    (pt : List Nat → Option T) (src : List (Except ε (List Nat)))
    {c line rest : List Nat} {d : Decoded Er T}
    (hpl : process_line c = some (line, rest))
    (hdf : decodeFrame pe pt line = d)
    (hskip : d ≠ .skip) (hpan : d ≠ .panicked) :
    OpenAiStream.poll_next pe pt ⟨src, some c⟩
      = .ready (itemOfDecoded d) 0 ⟨src, bufOf rest⟩ := by
  unfold OpenAiStream.poll_next
  cases d with
  | skip => exact absurd rfl hskip
  | panicked => exact absurd rfl hpan
  | protocolError e => simp [pollNextAux, hpl, hdf, itemOfDecoded]
  | ended => simp [pollNextAux, hpl, hdf, itemOfDecoded]
  | payload v => simp [pollNextAux, hpl, hdf, itemOfDecoded]
  | decodeError => simp [pollNextAux, hpl, hdf, itemOfDecoded]

/-- Unfolding `poll_next` when the buffer is empty and the pulled chunk
yields a surfaced frame: exactly one source poll happens. -/
theorem poll_next_pull_frame {ε Er T : Type} (pe : List Nat → Option Er)
    (pt : List Nat → Option T) (restSrc : List (Except ε (List Nat)))
    {x line rest : List Nat} {d : Decoded Er T}
    (hpl : process_line x = some (line, rest))
    (hdf : decodeFrame pe pt line = d)
    (hskip : d ≠ .skip) (hpan : d ≠ .panicked) :
    OpenAiStream.poll_next pe pt ⟨.ok x :: restSrc, none⟩
      = .ready (itemOfDecoded d) 1 ⟨restSrc, bufOf rest⟩ := by
  unfold OpenAiStream.poll_next
  cases d with
  | skip => exact absurd rfl hskip
  | panicked => exact absurd rfl hpan
  | protocolError e => simp [pollNextAux, hpl, hdf, itemOfDecoded]
  | ended => simp [pollNextAux, hpl, hdf, itemOfDecoded]
  | payload v => simp [pollNextAux, hpl, hdf, itemOfDecoded]
  | decodeError => simp [pollNextAux, hpl, hdf, itemOfDecoded]

/-- Unfolding `poll_next` on a buffered chunk with no delimiter: the
`slice(2..)` panic of `process_line`. -/
theorem poll_next_buffer_panic {ε Er T : Type} (pe : List Nat → Option Er)
    (pt : List Nat → Option T) (src : List (Except ε (List Nat)))
    {c : List Nat} (h : noDoubleNewline c) :
    OpenAiStream.poll_next pe pt ⟨src, some c⟩ = (.panicked : PollResult ε Er T) := by
  unfold OpenAiStream.poll_next
  simp [pollNextAux, process_line_none c h]

/-- Unfolding `poll_next` when the buffer is empty and the pulled chunk
has no delimiter: the same panic on the freshly pulled chunk. -/
theorem poll_next_pull_panic {ε Er T : Type} (pe : List Nat → Option Er)
    (pt : List Nat → Option T) (restSrc : List (Except ε (List Nat)))
    {x : List Nat} (h : noDoubleNewline x) :
    OpenAiStream.poll_next pe pt ⟨.ok x :: restSrc, none⟩
      = (.panicked : PollResult ε Er T) := by
  unfold OpenAiStream.poll_next
  simp [pollNextAux, process_line_none x h]

/-- Unfolding `poll_next` on a transport error at the head of the source. -/
theorem poll_next_transport {ε Er T : Type} (pe : List Nat → Option Er)
    (pt : List Nat → Option T) (e : ε) (restSrc : List (Except ε (List Nat))) :
    OpenAiStream.poll_next pe pt ⟨.error e :: restSrc, none⟩
      = (.ready (.item (.error (.transport e))) 1 ⟨restSrc, none⟩
          : PollResult ε Er T) := by
  unfold OpenAiStream.poll_next
  simp [pollNextAux]

/-! ## Settled claims -/

/-- C1: the chunking-invariance property fails on the code.  The single
well-formed record `data: 1\n\n` delivered as the two chunks `data: 1`
and `\n\n` makes the first call to `OpenAiStream::poll_next` panic (the
first chunk holds no delimiter, so `process_line` evaluates `slice(2..)`
on the empty result of `split_off`), whereas the same bytes delivered as
one single chunk yield the payload 1 and then end of sequence. -/
theorem split_record_delivery_panics :
    (OpenAiStream.poll_next parseErrC parseNatC
        (⟨[.ok (bytes "data: 1"), .ok (bytes "\n\n")], none⟩ : StreamState Unit)
      : PollResult Unit (List Nat) Nat) = .panicked
    ∧ (OpenAiStream.poll_next parseErrC parseNatC
        (⟨[.ok (bytes "data: 1\n\n")], none⟩ : StreamState Unit)
      : PollResult Unit (List Nat) Nat) = .ready (.item (.ok 1)) 1 ⟨[], none⟩
    ∧ (OpenAiStream.poll_next parseErrC parseNatC
        (⟨[], none⟩ : StreamState Unit)
      : PollResult Unit (List Nat) Nat) = .ready .ended 1 ⟨[], none⟩ :=
  ⟨rfl, rfl, rfl⟩

/-- C4: whenever `poll_next` processes buffered bytes containing no
occurrence of the `\n\n` delimiter — a buffered remainder or a freshly
pulled source chunk — the line-extraction step panics (`slice(2..)` on the
empty `Bytes` returned by `split_off(current.len())`, modelled by the
`none` of `sliceFrom`) instead of retaining the bytes and awaiting more
input. -/
theorem no_delimiter_panics {ε Er T : Type} (pe : List Nat → Option Er)
    (pt : List Nat → Option T) :
    (∀ (src : List (Except ε (List Nat))) (c : List Nat), noDoubleNewline c →
      OpenAiStream.poll_next pe pt ⟨src, some c⟩ = (.panicked : PollResult ε Er T))
    ∧ (∀ (src : List (Except ε (List Nat))) (x : List Nat), noDoubleNewline x →
      OpenAiStream.poll_next pe pt ⟨.ok x :: src, none⟩
        = (.panicked : PollResult ε Er T)) :=
  ⟨fun src _ h => poll_next_buffer_panic pe pt src h,
   fun src _ h => poll_next_pull_panic pe pt src h⟩

/-- Witness for C4 at the concrete delimiter-free buffer `da`. -/
theorem no_delimiter_panics_witness :
    (OpenAiStream.poll_next parseErrC parseNatC
        (⟨[], some (bytes "da")⟩ : StreamState Unit)
      : PollResult Unit (List Nat) Nat) = .panicked
    ∧ (OpenAiStream.poll_next parseErrC parseNatC
        (⟨[.ok (bytes "da")], none⟩ : StreamState Unit)
      : PollResult Unit (List Nat) Nat) = .panicked :=
  ⟨(no_delimiter_panics parseErrC parseNatC).1 [] (bytes "da")
      (noDoubleNewline_of_findDelim _ rfl),
   (no_delimiter_panics parseErrC parseNatC).2 [] (bytes "da")
      (noDoubleNewline_of_findDelim _ rfl)⟩

/-- C5: drain before pull.  If the buffered chunk already contains a
complete surfaced frame (its delimiter present, and the frame neither
discarded as all-whitespace nor panicking), `poll_next` extracts and
returns it with zero polls of the byte source and the source queue
unchanged; only with an empty buffer is the source polled, exactly once,
after which the freshly pulled chunk is split in the same call. -/
theorem drain_before_pull {ε Er T : Type} (pe : List Nat → Option Er)
    (pt : List Nat → Option T) :
    (∀ (src : List (Except ε (List Nat))) (c line rest : List Nat)
        (d : Decoded Er T),
      process_line c = some (line, rest) → decodeFrame pe pt line = d →
      d ≠ .skip → d ≠ .panicked →
      OpenAiStream.poll_next pe pt ⟨src, some c⟩
        = .ready (itemOfDecoded d) 0 ⟨src, bufOf rest⟩)
    ∧ (∀ (restSrc : List (Except ε (List Nat))) (x line rest : List Nat)
        (d : Decoded Er T),
      process_line x = some (line, rest) → decodeFrame pe pt line = d →
      d ≠ .skip → d ≠ .panicked →
      OpenAiStream.poll_next pe pt ⟨.ok x :: restSrc, none⟩
        = .ready (itemOfDecoded d) 1 ⟨restSrc, bufOf rest⟩) :=
  ⟨fun src _ _ _ _ hpl hdf hs hp => poll_next_some_frame pe pt src hpl hdf hs hp,
   fun restSrc _ _ _ _ hpl hdf hs hp => poll_next_pull_frame pe pt restSrc hpl hdf hs hp⟩

/-- Witness for C5: a buffered complete frame is returned with zero source
polls, and a pulled chunk's first frame with exactly one. -/
theorem drain_before_pull_witness :
    (OpenAiStream.poll_next parseErrC parseNatC
        (⟨[.ok (bytes "later")], some (bytes "data: 7\n\nrest")⟩ : StreamState Unit)
      : PollResult Unit (List Nat) Nat)
      = .ready (.item (.ok 7)) 0 ⟨[.ok (bytes "later")], some (bytes "rest")⟩
    ∧ (OpenAiStream.poll_next parseErrC parseNatC
        (⟨[.ok (bytes "data: 7\n\n")], none⟩ : StreamState Unit)
      : PollResult Unit (List Nat) Nat)
      = .ready (.item (.ok 7)) 1 ⟨[], none⟩ :=
  ⟨(drain_before_pull parseErrC parseNatC).1 [.ok (bytes "later")]
      (bytes "data: 7\n\nrest") (bytes "data: 7") (bytes "rest") (.payload 7)
      rfl rfl (by decide) (by decide),
   (drain_before_pull parseErrC parseNatC).2 [] (bytes "data: 7\n\n")
      (bytes "data: 7") [] (.payload 7) rfl rfl (by decide) (by decide)⟩

/-- C3: error precedence.  A trimmed, non-empty frame that parses as the
error shape is reported as a protocol error for every payload parser `pt`
whatsoever: the error-shape test comes first and is a hard branch, so the
frame is never attempted as a payload even if `pt` would accept it. -/
theorem error_shape_precedence {Er T : Type} (pe : List Nat → Option Er)
    (line : List Nat) (e : Er) (hne : trim_ascii line ≠ [])
    (hpe : pe (trim_ascii line) = some e) :
    ∀ pt : List Nat → Option T, decodeFrame pe pt line = .protocolError e :=
  fun pt => decodeFrame_protocol pe pt hne hpe

/-- Witness for C3: the concrete error document is reported as a protocol
error even under a payload parser that accepts every input. -/
theorem error_shape_precedence_witness :
    decodeFrame parseErrC (fun _ => some (999 : Nat)) errBytes
      = .protocolError (bytes "rate limited") :=
  error_shape_precedence parseErrC errBytes (bytes "rate limited")
    (by decide) (by decide) (fun _ => some 999)

/-- C10: the event prefix is never verified.  For trimmed frames of length
at least 5 that do not parse as the error shape, the decode outcome
depends only on the bytes from index 5 onward: the first five bytes are
removed by position without being compared to the `data:` marker. -/
theorem data_marker_never_verified {Er T : Type} (pe : List Nat → Option Er)
    (pt : List Nat → Option T) (t₁ t₂ : List Nat)
    (htrim₁ : trim_ascii t₁ = t₁) (htrim₂ : trim_ascii t₂ = t₂)
    (hlen₁ : 5 ≤ t₁.length) (hlen₂ : 5 ≤ t₂.length)
    (hpe₁ : pe t₁ = none) (hpe₂ : pe t₂ = none)
    (htail : t₁.drop 5 = t₂.drop 5) :
    decodeFrame pe pt t₁ = decodeFrame pe pt t₂ := by
  have hne₁ : t₁ ≠ [] := by
    intro h
    rw [h] at hlen₁
    simp at hlen₁
  have hne₂ : t₂ ≠ [] := by
    intro h
    rw [h] at hlen₂
    simp at hlen₂
  rw [decodeFrame_after_marker pe pt htrim₁ hne₁ hpe₁ hlen₁,
    decodeFrame_after_marker pe pt htrim₂ hne₂ hpe₂ hlen₂, htail]

/-- Witness for C10: a frame with the genuine marker and a frame with a
corrupted marker but the same tail decode identically. -/
theorem data_marker_never_verified_witness :
    decodeFrame parseErrC parseNatC (bytes "data: 7")
      = decodeFrame parseErrC parseNatC (bytes "QQQQQ 7") :=
  data_marker_never_verified parseErrC parseNatC (bytes "data: 7")
    (bytes "QQQQQ 7") (by decide) (by decide) (by decide) (by decide)
    (by decide) (by decide) (by decide)

/-- C2: single-frame decoding.  For a complete, trimmed frame `t`
(terminated by its delimiter, containing no earlier delimiter) conforming
to the wire shape, `poll_next` produces, respectively: an error item
carrying the remote error when `t` parses as the error shape; end of the
sequence when the 5 marker bytes are followed by the terminal token; a
successful item when the remainder deserializes as the payload; and a
hard error surfaced to the caller when that deserialization fails. -/
theorem single_frame_decoding {ε Er T : Type} (pe : List Nat → Option Er)
    (pt : List Nat → Option T) (src : List (Except ε (List Nat)))
    (t : List Nat) (htrim : trim_ascii t = t) (hne : t ≠ [])
    (hnd : noDoubleNewline t) :
    (∀ e : Er, pe t = some e →
      OpenAiStream.poll_next pe pt ⟨src, some (t ++ [10, 10])⟩
        = .ready (.item (.error (.protocol e))) 0 ⟨src, none⟩)
    ∧ (∀ r : List Nat, t = dataMark ++ r → pe t = none →
        trim_ascii_start r = DONE →
        OpenAiStream.poll_next pe pt ⟨src, some (t ++ [10, 10])⟩
          = .ready .ended 0 ⟨src, none⟩)
    ∧ (∀ (r : List Nat) (v : T), t = dataMark ++ r → pe t = none →
        DONE.isPrefixOf (trim_ascii_start r) = false →
        pt (trim_ascii_start r) = some v →
        OpenAiStream.poll_next pe pt ⟨src, some (t ++ [10, 10])⟩
          = .ready (.item (.ok v)) 0 ⟨src, none⟩)
    ∧ (∀ r : List Nat, t = dataMark ++ r → pe t = none →
        DONE.isPrefixOf (trim_ascii_start r) = false →
        pt (trim_ascii_start r) = none →
        OpenAiStream.poll_next pe pt ⟨src, some (t ++ [10, 10])⟩
          = .ready (.item (.error .decode)) 0 ⟨src, none⟩) := by
  have hpl : process_line (t ++ [10, 10]) = some (t, []) :=
    process_line_terminated t hnd (trim_ascii_getLast_not_nl htrim)
  have hne' : trim_ascii t ≠ [] := by
    rw [htrim]
    exact hne
  refine ⟨fun e hpe => ?_, fun r hdata hpe hdone => ?_,
    fun r v hdata hpe hnotdone hpt => ?_, fun r hdata hpe hnotdone hpt => ?_⟩
  · have hdf : decodeFrame pe pt t = .protocolError e :=
      decodeFrame_protocol pe pt hne' (by rw [htrim]; exact hpe)
    exact poll_next_some_frame pe pt src hpl hdf
      (fun h => Decoded.noConfusion h) (fun h => Decoded.noConfusion h)
  · have hdf : decodeFrame pe pt t = .ended := by
      rw [decodeFrame_data pe pt htrim hpe hdata, hdone]
      rfl
    exact poll_next_some_frame pe pt src hpl hdf
      (fun h => Decoded.noConfusion h) (fun h => Decoded.noConfusion h)
  · have hdf : decodeFrame pe pt t = .payload v := by
      rw [decodeFrame_data pe pt htrim hpe hdata, hnotdone, hpt]
      rfl
    exact poll_next_some_frame pe pt src hpl hdf
      (fun h => Decoded.noConfusion h) (fun h => Decoded.noConfusion h)
  · have hdf : decodeFrame pe pt t = .decodeError := by
      rw [decodeFrame_data pe pt htrim hpe hdata, hnotdone, hpt]
      rfl
    exact poll_next_some_frame pe pt src hpl hdf
      (fun h => Decoded.noConfusion h) (fun h => Decoded.noConfusion h)

/-- Witness for C2, exercising the terminal-token case on the concrete
frame holding the marker followed by the terminal token. -/
theorem single_frame_decoding_witness :
    (OpenAiStream.poll_next parseErrC parseNatC
        (⟨[], some (bytes "data: [DONE]" ++ [10, 10])⟩ : StreamState Unit)
      : PollResult Unit (List Nat) Nat) = .ready .ended 0 ⟨[], none⟩ :=
  ((single_frame_decoding parseErrC parseNatC [] (bytes "data: [DONE]")
      (by decide) (by decide)
      (noDoubleNewline_of_findDelim _ rfl)).2.1
    (bytes " [DONE]") (by decide) (by decide) (by decide))

/-- C6 counterexample: an error item is not terminal for the stream
instance.  From the single chunk `data: x\n\ndata: 7\n\n`, the first poll
yields a payload-decode error (the record `data: x` does not deserialize
as a number), yet the very next poll of the same stream yields the
payload 7. -/
theorem error_not_terminal_cex :
    (OpenAiStream.poll_next parseErrC parseNatC
        (⟨[.ok (bytes "data: x\n\ndata: 7\n\n")], none⟩ : StreamState Unit)
      : PollResult Unit (List Nat) Nat)
      = .ready (.item (.error .decode)) 1 ⟨[], some (bytes "data: 7\n\n")⟩
    ∧ (OpenAiStream.poll_next parseErrC parseNatC
        (⟨[], some (bytes "data: 7\n\n")⟩ : StreamState Unit)
      : PollResult Unit (List Nat) Nat)
      = .ready (.item (.ok 7)) 0 ⟨[], none⟩ :=
  ⟨rfl, rfl⟩

/-- C6 amended: every error — transport, in-band protocol, or payload
decode — is surfaced to the caller immediately, as the error item of the
poll that encountered it; but an error does not terminate the stream
instance, whose state stays live, so terminality is an obligation of the
caller rather than a property enforced by the stream. -/
theorem errors_surfaced_not_fused {ε Er T : Type} (pe : List Nat → Option Er)
    (pt : List Nat → Option T) :
    (∀ (src : List (Except ε (List Nat))) (c line rest : List Nat) (e : Er),
      process_line c = some (line, rest) →
      decodeFrame pe pt line = .protocolError e →
      OpenAiStream.poll_next pe pt ⟨src, some c⟩
        = .ready (.item (.error (.protocol e))) 0 ⟨src, bufOf rest⟩)
    ∧ (∀ (src : List (Except ε (List Nat))) (c line rest : List Nat),
      process_line c = some (line, rest) →
      decodeFrame pe pt line = .decodeError →
      OpenAiStream.poll_next pe pt ⟨src, some c⟩
        = .ready (.item (.error .decode)) 0 ⟨src, bufOf rest⟩)
    ∧ (∀ (e : ε) (restSrc : List (Except ε (List Nat))),
      OpenAiStream.poll_next pe pt ⟨.error e :: restSrc, none⟩
        = .ready (.item (.error (.transport e))) 1 ⟨restSrc, none⟩) :=
  ⟨fun src _ _ _ _ hpl hdf => poll_next_some_frame pe pt src hpl hdf
      (fun h => Decoded.noConfusion h) (fun h => Decoded.noConfusion h),
   fun src _ _ _ hpl hdf => poll_next_some_frame pe pt src hpl hdf
      (fun h => Decoded.noConfusion h) (fun h => Decoded.noConfusion h),
   fun e restSrc => poll_next_transport pe pt e restSrc⟩

/-- Witness for the amended C6: the concrete in-band error document is
surfaced as a protocol-error item, and a transport error as a
transport-error item. -/
theorem errors_surfaced_not_fused_witness :
    (OpenAiStream.poll_next parseErrC parseNatC
        (⟨[], some (errBytes ++ [10, 10])⟩ : StreamState Unit)
      : PollResult Unit (List Nat) Nat)
      = .ready (.item (.error (.protocol (bytes "rate limited")))) 0 ⟨[], none⟩
    ∧ (OpenAiStream.poll_next parseErrC parseNatC
        (⟨[.error ()], none⟩ : StreamState Unit)
      : PollResult Unit (List Nat) Nat)
      = .ready (.item (.error (.transport ()))) 1 ⟨[], none⟩ :=
  ⟨(errors_surfaced_not_fused parseErrC parseNatC).1 [] (errBytes ++ [10, 10])
      errBytes [] (bytes "rate limited") rfl rfl,
   (errors_surfaced_not_fused parseErrC parseNatC).2.2 () []⟩

/-- C7 counterexample: end of sequence after the terminal sentinel is not
latched.  The sentinel chunk is decoded and the stream signals end; the
next poll of the same stream polls the byte source again (one further
source poll) and even yields the payload 7. -/
theorem done_not_terminal_cex :
    (OpenAiStream.poll_next parseErrC parseNatC
        (⟨[.ok (bytes "data: [DONE]\n\n"), .ok (bytes "data: 7\n\n")], none⟩
          : StreamState Unit)
      : PollResult Unit (List Nat) Nat)
      = .ready .ended 1 ⟨[.ok (bytes "data: 7\n\n")], none⟩
    ∧ (OpenAiStream.poll_next parseErrC parseNatC
        (⟨[.ok (bytes "data: 7\n\n")], none⟩ : StreamState Unit)
      : PollResult Unit (List Nat) Nat)
      = .ready (.item (.ok 7)) 1 ⟨[], none⟩ :=
  ⟨rfl, rfl⟩

/-- C7 amended: when the terminal sentinel record is decoded, that poll
signals end of sequence at once — from a buffered frame with zero source
polls, from a freshly pulled chunk with exactly the one poll that
delivered it — but the terminal state is not latched, so a later poll of
the same stream instance polls the source again. -/
theorem done_signals_end_immediately {ε Er T : Type} (pe : List Nat → Option Er)
    (pt : List Nat → Option T) :
    (∀ (src : List (Except ε (List Nat))) (c line rest : List Nat),
      process_line c = some (line, rest) → decodeFrame pe pt line = .ended →
      OpenAiStream.poll_next pe pt ⟨src, some c⟩
        = (.ready .ended 0 ⟨src, bufOf rest⟩ : PollResult ε Er T))
    ∧ (∀ (restSrc : List (Except ε (List Nat))) (x line rest : List Nat),
      process_line x = some (line, rest) → decodeFrame pe pt line = .ended →
      OpenAiStream.poll_next pe pt ⟨.ok x :: restSrc, none⟩
        = (.ready .ended 1 ⟨restSrc, bufOf rest⟩ : PollResult ε Er T)) :=
  ⟨fun src _ _ _ hpl hdf => poll_next_some_frame pe pt src hpl hdf
      (fun h => Decoded.noConfusion h) (fun h => Decoded.noConfusion h),
   fun restSrc _ _ _ hpl hdf => poll_next_pull_frame pe pt restSrc hpl hdf
      (fun h => Decoded.noConfusion h) (fun h => Decoded.noConfusion h)⟩

/-- Witness for the amended C7 on the concrete sentinel record, buffered
and freshly pulled. -/
theorem done_signals_end_immediately_witness :
    (OpenAiStream.poll_next parseErrC parseNatC
        (⟨[.ok (bytes "later")], some (bytes "data: [DONE]\n\n")⟩
          : StreamState Unit)
      : PollResult Unit (List Nat) Nat)
      = .ready .ended 0 ⟨[.ok (bytes "later")], none⟩
    ∧ (OpenAiStream.poll_next parseErrC parseNatC
        (⟨[.ok (bytes "data: [DONE]\n\n")], none⟩ : StreamState Unit)
      : PollResult Unit (List Nat) Nat)
      = .ready .ended 1 ⟨[], none⟩ :=
  ⟨(done_signals_end_immediately parseErrC parseNatC).1 [.ok (bytes "later")]
      (bytes "data: [DONE]\n\n") (bytes "data: [DONE]") [] rfl rfl,
   (done_signals_end_immediately parseErrC parseNatC).2 []
      (bytes "data: [DONE]\n\n") (bytes "data: [DONE]") [] rfl rfl⟩

/-- C8: the reader-mode JSONL scenario fails on the code.  Two chunks
whose concatenation holds the 5 complete lines `1` .. `5` and the trailing
partial line `12`: instead of yielding the 5 records, the very first poll
of `Contents::poll_next` yields a deserialization error, because
`VecDeque::split_off(idx)` returns the elements from the first newline to
the end of the buffer (here `\n2\n3\n`, two documents, a trailing-data
error for serde) while retaining the first line `1` in the buffer. -/
theorem contents_first_poll_errors :
    (Contents.poll_next parseNatC
        (⟨[.ok (bytes "1\n2\n3\n"), .ok (bytes "4\n5\n12")], []⟩
          : ContentsState Unit)
      : CPollResult Unit Nat)
      = .ready (.item (.error .decode)) 1 ⟨[.ok (bytes "4\n5\n12")], bytes "1"⟩ :=
  rfl

/-- C9: buffered-reader fill contract.  A non-empty buffer is returned as
one contiguous view with zero source polls; an empty buffer pulls exactly
one chunk before returning it; and an exhausted source yields the empty
slice (EOF), not an error. -/
theorem poll_fill_buf_contract {ε : Type} :
    (∀ (src : List (Except ε (List Nat))) (buf : List Nat), buf ≠ [] →
      StreamTokioAsyncRead.poll_fill_buf ⟨src, buf⟩ = .ok buf 0 ⟨src, buf⟩)
    ∧ (∀ (x : List Nat) (rest : List (Except ε (List Nat))),
      StreamTokioAsyncRead.poll_fill_buf ⟨.ok x :: rest, []⟩ = .ok x 1 ⟨rest, x⟩)
    ∧ (StreamTokioAsyncRead.poll_fill_buf (⟨[], []⟩ : ReaderState ε)
      = .ok [] 1 ⟨[], []⟩) := by
  refine ⟨fun src buf h => ?_, fun x rest => rfl, rfl⟩
  cases buf with
  | nil => exact absurd rfl h
  | cons b bs => rfl

/-- Witness for C9 with a one-byte buffer and a one-chunk source. -/
theorem poll_fill_buf_contract_witness :
    StreamTokioAsyncRead.poll_fill_buf (⟨[.ok [8]], [7]⟩ : ReaderState Unit)
      = .ok [7] 0 ⟨[.ok [8]], [7]⟩
    ∧ StreamTokioAsyncRead.poll_fill_buf (⟨[.ok [8]], []⟩ : ReaderState Unit)
      = .ok [8] 1 ⟨[], [8]⟩
    ∧ StreamTokioAsyncRead.poll_fill_buf (⟨[], []⟩ : ReaderState Unit)
      = .ok [] 1 ⟨[], []⟩ :=
  ⟨(poll_fill_buf_contract).1 [.ok [8]] [7] (by decide),
   (poll_fill_buf_contract).2.1 [8] [],
   (poll_fill_buf_contract).2.2⟩

end LibOpenai
